import Mathlib

/-!
# Configuration resolution of `code/initialization/config.go`

A shallow embedding of the configuration loader and a verification of its
documented behaviour.

Modelling conventions.

* Go `string` is embedded as `String`.  Every comparison the program makes is
  against ASCII text (`","`, `"sk-"`, `"fk"`, digits, signs), and no byte of a
  multi-byte UTF-8 sequence is an ASCII byte, so working code point by code
  point gives the results the byte-wise Go code gives.  `len(s)` is
  `String.utf8ByteSize`.
* Go `int` is the 64-bit signed integer; values are embedded as `Int`, with the
  range checks of `strconv` written out.
* Go `[]string` is `List String`; the `nil` slice is `[]`.
* `fmt.Printf` diagnostics do not influence any returned value and are left out.
* `viper.GetString` is passed to the four getters as the parameter `GetString`;
  `LoadConfig` instantiates it with the model of the library lookup below.
-/

namespace Initialization

/-! ## Standard-library helpers used by the source -/

/-- Go `strings.HasPrefix(s, p)`: `len(s) >= len(p) && s[:len(p)] == p`. -/
def HasPrefix (s p : String) : Bool :=
  decide (s.data.length ≥ p.data.length) && (s.data.take p.data.length == p.data)

/-- Go `strings.Index(s, ",")` on the characters of `s`: position of the first comma. -/
def indexComma : List Char → Option Nat
  | [] => none
  | c :: cs => if c = ',' then some 0 else (indexComma cs).map (· + 1)

/-- The loop of Go `genSplit(s, ",", 0, n)`: at most `n` times, cut at the first
separator, keep the part before it and continue with the part after it; what
remains is the last element. -/
def genSplitLoop : Nat → List Char → List (List Char)
  | 0, s => [s]
  | n + 1, s =>
    match indexComma s with
    | none => [s]
    | some m => s.take m :: genSplitLoop n (s.drop (m + 1))

/-- Go `genSplit(s, ",", 0, -1)`: the loop bound is `strings.Count(s, ",")`. -/
def splitCommaChars (s : List Char) : List (List Char) :=
  genSplitLoop (s.count ',') s

/-- Go `strings.Split(s, ",")`. -/
def SplitComma (s : String) : List String :=
  (splitCommaChars s.data).map String.mk

/-- Go `strconv.ParseBool`; `none` stands for the returned syntax error. -/
def ParseBool (str : String) : Option Bool :=
  if str = "1" ∨ str = "t" ∨ str = "T" ∨ str = "TRUE" ∨ str = "true" ∨ str = "True" then some true
  else if str = "0" ∨ str = "f" ∨ str = "F" ∨ str = "FALSE" ∨ str = "false" ∨ str = "False" then
    some false
  else none

/-- The two error values `strconv` reports in a `*NumError`. -/
inductive NumError where
  | ErrSyntax
  | ErrRange
deriving DecidableEq, Repr

/-- Go `strconv.IntSize` on the 64-bit platforms the service is built for. -/
def intSize : Nat := 64

/-- The digit loop of the fast path of Go `strconv.Atoi`:
`ch -= '0'; if ch > 9 { syntax error }; n = n*10 + int(ch)`.  The byte `ch - '0'`
exceeds 9 exactly when `ch` is outside `'0'..'9'`. -/
def atoiFastLoop : List Char → Int → Option Int
  | [], n => some n
  | ch :: rest, n =>
    if ch.toNat < 48 ∨ 57 < ch.toNat then none
    else atoiFastLoop rest (n * 10 + ((ch.toNat - 48 : Nat) : Int))

/-- The fast path of Go `strconv.Atoi` (taken when `0 < len(s) < 19`). -/
def atoiFast (s0 : List Char) : Int × Option NumError :=
  let signed := decide (s0.head? = some '-') || decide (s0.head? = some '+')
  let s := if signed then s0.tail else s0
  if signed && decide (s.length < 1) then (0, some NumError.ErrSyntax)
  else
    match atoiFastLoop s 0 with
    | none => (0, some NumError.ErrSyntax)
    | some n => (if s0.head? = some '-' then -n else n, none)

/-- Go `lower(c)` of `strconv`: `c | ('x' - 'X')`. -/
def lower (c : Nat) : Nat := c ||| 32

/-- The digit value Go `strconv.ParseUint` assigns to a byte, `none` in the
`default` case of its switch (the underscore case needs base 0 and is absent). -/
def digitValue (c : Char) : Option Nat :=
  if 48 ≤ c.toNat ∧ c.toNat ≤ 57 then some (c.toNat - 48)
  else if 97 ≤ lower c.toNat ∧ lower c.toNat ≤ 122 then some (lower c.toNat - 97 + 10)
  else none

/-- Go `maxUint64`. -/
def maxUint64 : Nat := 18446744073709551615

/-- The loop of Go `strconv.ParseUint(s, 10, 0)` over the accumulator `n : uint64`;
the result is the pair `(value, err)`. -/
def parseUintLoop : List Char → Nat → Nat × Option NumError
  | [], n => (n, none)
  | c :: cs, n =>
    match digitValue c with
    | none => (0, some NumError.ErrSyntax)
    | some d =>
      if d ≥ 10 then (0, some NumError.ErrSyntax)
      else if n ≥ maxUint64 / 10 + 1 then (maxUint64, some NumError.ErrRange)
      else
        let n10 := (n * 10) % 2 ^ 64
        let n1 := (n10 + d) % 2 ^ 64
        if n1 < n10 ∨ n1 > 2 ^ intSize - 1 then (maxUint64, some NumError.ErrRange)
        else parseUintLoop cs n1

/-- Go `strconv.ParseUint(s, 10, 0)`. -/
def ParseUint (s : List Char) : Nat × Option NumError :=
  if s = [] then (0, some NumError.ErrSyntax) else parseUintLoop s 0

/-- Go conversion `int64(x)` of a `uint64`, and the wrap-around of `int64` arithmetic. -/
def toInt64 (x : Int) : Int := (x + 2 ^ 63) % 2 ^ 64 - 2 ^ 63

/-- Go `strconv.ParseInt(s, 10, 0)`. -/
def ParseInt (s0 : List Char) : Int × Option NumError :=
  if s0 = [] then (0, some NumError.ErrSyntax)
  else
    let neg := decide (s0.head? = some '-')
    let s := if s0.head? = some '+' ∨ s0.head? = some '-' then s0.tail else s0
    let r := ParseUint s
    if r.2 = some NumError.ErrSyntax then (0, r.2)
    else
      let cutoff : Nat := 2 ^ (intSize - 1)
      if !neg && decide (r.1 ≥ cutoff) then (((cutoff - 1 : Nat) : Int), some NumError.ErrRange)
      else if neg && decide (r.1 > cutoff) then (-(cutoff : Int), some NumError.ErrRange)
      else
        let n := toInt64 r.1
        (if neg then toInt64 (-n) else n, none)

/-- Go `strconv.Atoi`. -/
def Atoi (s : String) : Int × Option NumError :=
  let sLen := s.utf8ByteSize
  if 0 < sLen ∧ sLen < 19 then atoiFast s.data
  else ParseInt s.data

/-! ## The record -/

/-- The Go struct `Config`. -/
structure Config where
  Initialized : Bool
  FeishuAppId : String
  FeishuAppSecret : String
  FeishuAppEncryptKey : String
  FeishuAppVerificationToken : String
  FeishuBotName : String
  OpenaiApiKeys : List String
  HttpPort : Int
  HttpsPort : Int
  UseHttps : Bool
  CertFile : String
  KeyFile : String
  OpenaiApiUrl : String
  HttpProxy : String
  OpenAIHttpClientTimeOut : Int
  HttpLoggerEnable : Bool
  HttpLoggerUrl : String
  HttpLoggerMethod : String
  HttpLoggerInterval : Int
  HttpLoggerThreshold : Int
  AzureOn : Bool
  AzureApiVersion : String
  AzureDeploymentName : String
  AzureResourceName : String
  AzureOpenaiToken : String
deriving DecidableEq, Repr

/-! ## Getters -/

/-- Go `getViperStringValue`. -/
def getViperStringValue (GetString : String → String) (key : String) (defaultValue : String) :
    String :=
  let value := GetString key
  if value = "" then defaultValue else value

/-- Go `filterFormatKey`: the `for … range` loop appending to `result`. -/
def filterFormatKey (keys : List String) : List String :=
  keys.foldl
    (fun result key => if HasPrefix key "sk-" || HasPrefix key "fk" then result ++ [key] else result)
    []

/-- Go `getViperStringArray`. -/
def getViperStringArray (GetString : String → String) (key : String)
    (defaultValue : List String) : List String :=
  let value := GetString key
  if value = "" then defaultValue
  else
    let raw := SplitComma value
    filterFormatKey raw

/-- Go `getViperIntValue`. -/
def getViperIntValue (GetString : String → String) (key : String) (defaultValue : Int) : Int :=
  let value := GetString key
  if value = "" then defaultValue
  else
    let r := Atoi value
    if r.2 ≠ none then defaultValue else r.1

/-- Go `getViperBoolValue`. -/
def getViperBoolValue (GetString : String → String) (key : String) (defaultValue : Bool) : Bool :=
  let value := GetString key
  if value = "" then defaultValue
  else
    match ParseBool value with
    | none => defaultValue
    | some boolValue => boolValue

/-- Go `(*Config).GetCertFile`, with `os.Stat` succeeding exactly on the paths for
which `stat` is `true`.  The second component is the receiver after the call. -/
def Config.GetCertFile (stat : String → Bool) (config : Config) : String × Config :=
  if config.CertFile = "" then ("cert.pem", config)
  else if !stat config.CertFile then ("cert.pem", config)
  else (config.CertFile, config)

/-- Go `(*Config).GetKeyFile`, with `os.Stat` succeeding exactly on the paths for
which `stat` is `true`.  The second component is the receiver after the call. -/
def Config.GetKeyFile (stat : String → Bool) (config : Config) : String × Config :=
  if config.KeyFile = "" then ("key.pem", config)
  else if !stat config.KeyFile then ("key.pem", config)
  else (config.KeyFile, config)

/-! ## The configuration source

`github.com/spf13/viper` is an external library.  The part of its package-level
instance that `LoadConfig` drives is modelled after the library's documented
lookup order: an environment variable bound by `AutomaticEnv` is consulted
before the settings read from the configuration file, and an environment
variable that is set to the empty string counts as unset, because the program
never calls `viper.AllowEmptyEnv(true)`.  The program registers no override,
flag binding, key/value store or library-level default, so these layers are
empty.  Settings are indexed by the key as `LoadConfig` asks for it (the library
upper-cases it for the environment and lower-cases it for the file), and a
setting of the file is held as the string `cast.ToString` renders it to. -/

/-- What the process can observe outside itself: `env` is `os.LookupEnv`, and
`readConfig path` is the key/value content of the file at `path`, or `none`
when the file is missing, unreadable, of an unsupported type or malformed. -/
structure World where
  env : String → Option String
  readConfig : String → Option (String → Option String)

/-- The fields of the package-level viper instance the program touches. -/
structure Viper where
  configFile : String
  config : String → Option String
  automaticEnvApplied : Bool

/-- The viper instance of a fresh process (`viper.New()`). -/
def Viper.new : Viper :=
  { configFile := "", config := fun _ => none, automaticEnvApplied := false }

/-- Library `viper.SetConfigFile(in)`: `if in != "" { v.configFile = in }`. -/
def Viper.SetConfigFile (v : Viper) (path : String) : Viper :=
  if path ≠ "" then { v with configFile := path } else v

/-- Library `viper.ReadInConfig()`; `LoadConfig` discards the returned error, and on
every error the settings read earlier stay as they were. -/
def Viper.ReadInConfig (v : Viper) (w : World) : Viper :=
  if v.configFile = "" then v
  else
    match w.readConfig v.configFile with
    | none => v
    | some settings => { v with config := settings }

/-- Library `viper.AutomaticEnv()`. -/
def Viper.AutomaticEnv (v : Viper) : Viper :=
  { v with automaticEnvApplied := true }

/-- Library `getEnv` with `allowEmptyEnv = false`:
`val, ok := os.LookupEnv(key); return val, ok && val != ""`. -/
def Viper.getEnv (w : World) (key : String) : Option String :=
  match w.env key with
  | none => none
  | some val => if val ≠ "" then some val else none

/-- Library `find`: the environment layer, then the configuration file. -/
def Viper.find (v : Viper) (w : World) (key : String) : Option String :=
  match (if v.automaticEnvApplied then Viper.getEnv w key else none) with
  | some val => some val
  | none => v.config key

/-- Library `viper.GetString(key)`: `cast.ToString(v.Get(key))`, the empty string
for a key no layer supplies. -/
def Viper.GetString (v : Viper) (w : World) (key : String) : String :=
  (v.find w key).getD ""

/-! ## Resolution -/

/-- The composite literal of Go `LoadConfig`, over the lookup of the source. -/
def resolveFields (GetString : String → String) : Config :=
  { Initialized := false
    FeishuAppId := getViperStringValue GetString "APP_ID" ""
    FeishuAppSecret := getViperStringValue GetString "APP_SECRET" ""
    FeishuAppEncryptKey := getViperStringValue GetString "APP_ENCRYPT_KEY" ""
    FeishuAppVerificationToken := getViperStringValue GetString "APP_VERIFICATION_TOKEN" ""
    FeishuBotName := getViperStringValue GetString "BOT_NAME" ""
    OpenaiApiKeys := getViperStringArray GetString "OPENAI_KEY" []
    HttpPort := getViperIntValue GetString "HTTP_PORT" 9000
    HttpsPort := getViperIntValue GetString "HTTPS_PORT" 9001
    UseHttps := getViperBoolValue GetString "USE_HTTPS" false
    CertFile := getViperStringValue GetString "CERT_FILE" "cert.pem"
    KeyFile := getViperStringValue GetString "KEY_FILE" "key.pem"
    OpenaiApiUrl := getViperStringValue GetString "API_URL" "https://api.openai.com"
    HttpProxy := getViperStringValue GetString "HTTP_PROXY" ""
    OpenAIHttpClientTimeOut := getViperIntValue GetString "OPENAI_HTTP_CLIENT_TIMEOUT" 550
    HttpLoggerEnable := getViperBoolValue GetString "HTTP_LOGGER_ENABLE" false
    HttpLoggerUrl := getViperStringValue GetString "HTTP_LOGGER_URL" ""
    HttpLoggerMethod := getViperStringValue GetString "HTTP_LOGGER_METHOD" ""
    HttpLoggerInterval := getViperIntValue GetString "HTTP_LOGGER_INTERVAL" 10
    HttpLoggerThreshold := getViperIntValue GetString "HTTP_LOGGER_THRESHOLD" 10
    AzureOn := getViperBoolValue GetString "AZURE_ON" false
    AzureApiVersion := getViperStringValue GetString "AZURE_API_VERSION" "2023-03-15-preview"
    AzureDeploymentName := getViperStringValue GetString "AZURE_DEPLOYMENT_NAME" ""
    AzureResourceName := getViperStringValue GetString "AZURE_RESOURCE_NAME" ""
    AzureOpenaiToken := getViperStringValue GetString "AZURE_OPENAI_TOKEN" "" }

/-- The viper instance after the three set-up calls that open Go `LoadConfig`. -/
def loadSource (w : World) (cfg : String) (v : Viper) : Viper :=
  ((v.SetConfigFile cfg).ReadInConfig w).AutomaticEnv

/-- Go `LoadConfig(cfg)`, run in the world `w` with the viper instance in state `v`:
the record it returns and the viper instance it leaves behind.  The composite
literal does not name `Initialized`, which therefore has the zero value. -/
def LoadConfig (w : World) (cfg : String) (v : Viper) : Config × Viper :=
  let v1 := loadSource w cfg v
  (resolveFields (v1.GetString w), v1)

/-- The package-level variables behind `GetConfig`: the `done` flag of `once`, the
pointer `config` (`none` is `nil`) and the viper instance.  `loadCalls` counts
the executions of `LoadConfig`; no code reads it. -/
structure State where
  onceDone : Bool
  config : Option Config
  viper : Viper
  loadCalls : Nat

/-- The state of a fresh process. -/
def State.init : State :=
  { onceDone := false, config := none, viper := Viper.new, loadCalls := 0 }

/-- Go `GetConfig()`, called by one goroutine at a time, in the world `w` and with
`cfg` the current value of the `--config` flag: `once.Do` runs its function if
`done` is unset and sets `done`; the pointer `config` is returned. -/
def GetConfig (w : World) (cfg : String) (s : State) : Option Config × State :=
  let s1 : State :=
    if s.onceDone then s
    else
      let r := LoadConfig w cfg s.viper
      { onceDone := true
        config := some { r.1 with Initialized := true }
        viper := r.2
        loadCalls := s.loadCalls + 1 }
  (s1.config, s1)

/-- A sequential run of `GetConfig` calls; each call comes with the world and the
flag value current at that moment.  The result lists what the calls returned. -/
def runGetConfig : List (World × String) → State → List (Option Config) × State
  | [], s => ([], s)
  | call :: rest, s =>
    let r := GetConfig call.1 call.2 s
    let t := runGetConfig rest r.2
    (r.1 :: t.1, t.2)

/-! ## Reference notions the claims are stated with -/

/-- A character is one of the decimal digits `0` … `9`. -/
def isDecimalDigit (c : Char) : Bool :=
  decide (c ∈ ['0', '1', '2', '3', '4', '5', '6', '7', '8', '9'])

/-- The number a string of decimal digits denotes in positional notation, most
significant digit first. -/
def decimalValue : List Char → Nat
  | [] => 0
  | d :: ds => (d.toNat - 48) * 10 ^ ds.length + decimalValue ds

/-- A non-empty string of decimal digits. -/
def isDecimal (ds : List Char) : Bool :=
  !ds.isEmpty && ds.all isDecimalDigit

/-- The integer an optionally signed base-10 literal denotes, on the characters of
the literal; `none` for everything that is not of the form `[+-]?[0-9]+`. -/
def literalValueOf : List Char → Option Int
  | [] => none
  | c :: ds =>
    if c = '-' then (if isDecimal ds then some (-(decimalValue ds : Int)) else none)
    else if c = '+' then (if isDecimal ds then some (decimalValue ds : Int) else none)
    else if isDecimal (c :: ds) then some (decimalValue (c :: ds) : Int)
    else none

/-- The integer an optionally signed base-10 literal denotes. -/
def literalValue (v : String) : Option Int :=
  literalValueOf v.data

/-- The range of the Go type `int`. -/
def inIntRange (n : Int) : Bool :=
  decide (-9223372036854775808 ≤ n) && decide (n ≤ 9223372036854775807)

/-- The value the integer coercion is documented to give for the raw string `v`
and the default `d`. -/
def expectedInt (v : String) (d : Int) : Int :=
  match literalValue v with
  | none => d
  | some n => if inIntRange n then n else d

/-- What a caller that substitutes `d` on error sees of a parse result. -/
def orDefault (r : Int × Option NumError) (d : Int) : Int :=
  if r.2 ≠ none then d else r.1

/-- The accepted key formats: an element starts with `sk-` or with `fk`. -/
def acceptedKey (k : String) : Bool :=
  "sk-".data.isPrefixOf k.data || "fk".data.isPrefixOf k.data

/-- A value of one of the four field types. -/
inductive Value where
  | str (s : String)
  | int (n : Int)
  | bool (b : Bool)
  | list (l : List String)
deriving DecidableEq, Repr

/-- The declared type of a field together with its static default. -/
inductive Kind where
  | str (d : String)
  | int (d : Int)
  | bool (d : Bool)
  | keys
deriving DecidableEq, Repr

/-- The recognized keys with the kind and default `LoadConfig` gives each. -/
def fieldKinds : List (String × Kind) :=
  [ ("APP_ID", .str ""), ("APP_SECRET", .str ""), ("APP_ENCRYPT_KEY", .str ""),
    ("APP_VERIFICATION_TOKEN", .str ""), ("BOT_NAME", .str ""), ("OPENAI_KEY", .keys),
    ("HTTP_PORT", .int 9000), ("HTTPS_PORT", .int 9001), ("USE_HTTPS", .bool false),
    ("CERT_FILE", .str "cert.pem"), ("KEY_FILE", .str "key.pem"),
    ("API_URL", .str "https://api.openai.com"), ("HTTP_PROXY", .str ""),
    ("OPENAI_HTTP_CLIENT_TIMEOUT", .int 550), ("HTTP_LOGGER_ENABLE", .bool false),
    ("HTTP_LOGGER_URL", .str ""), ("HTTP_LOGGER_METHOD", .str ""),
    ("HTTP_LOGGER_INTERVAL", .int 10), ("HTTP_LOGGER_THRESHOLD", .int 10),
    ("AZURE_ON", .bool false), ("AZURE_API_VERSION", .str "2023-03-15-preview"),
    ("AZURE_DEPLOYMENT_NAME", .str ""), ("AZURE_RESOURCE_NAME", .str ""),
    ("AZURE_OPENAI_TOKEN", .str "") ]

/-- The raw string `raw`, supplied for `key`, coerced to a field kind. -/
def coerceAs (key raw : String) : Kind → Value
  | .str d => .str (getViperStringValue (fun _ => raw) key d)
  | .int d => .int (getViperIntValue (fun _ => raw) key d)
  | .bool d => .bool (getViperBoolValue (fun _ => raw) key d)
  | .keys => .list (getViperStringArray (fun _ => raw) key [])

/-- The field of the record that a recognized key resolves to. -/
def Config.field (c : Config) (key : String) : Option Value :=
  if key = "APP_ID" then some (.str c.FeishuAppId)
  else if key = "APP_SECRET" then some (.str c.FeishuAppSecret)
  else if key = "APP_ENCRYPT_KEY" then some (.str c.FeishuAppEncryptKey)
  else if key = "APP_VERIFICATION_TOKEN" then some (.str c.FeishuAppVerificationToken)
  else if key = "BOT_NAME" then some (.str c.FeishuBotName)
  else if key = "OPENAI_KEY" then some (.list c.OpenaiApiKeys)
  else if key = "HTTP_PORT" then some (.int c.HttpPort)
  else if key = "HTTPS_PORT" then some (.int c.HttpsPort)
  else if key = "USE_HTTPS" then some (.bool c.UseHttps)
  else if key = "CERT_FILE" then some (.str c.CertFile)
  else if key = "KEY_FILE" then some (.str c.KeyFile)
  else if key = "API_URL" then some (.str c.OpenaiApiUrl)
  else if key = "HTTP_PROXY" then some (.str c.HttpProxy)
  else if key = "OPENAI_HTTP_CLIENT_TIMEOUT" then some (.int c.OpenAIHttpClientTimeOut)
  else if key = "HTTP_LOGGER_ENABLE" then some (.bool c.HttpLoggerEnable)
  else if key = "HTTP_LOGGER_URL" then some (.str c.HttpLoggerUrl)
  else if key = "HTTP_LOGGER_METHOD" then some (.str c.HttpLoggerMethod)
  else if key = "HTTP_LOGGER_INTERVAL" then some (.int c.HttpLoggerInterval)
  else if key = "HTTP_LOGGER_THRESHOLD" then some (.int c.HttpLoggerThreshold)
  else if key = "AZURE_ON" then some (.bool c.AzureOn)
  else if key = "AZURE_API_VERSION" then some (.str c.AzureApiVersion)
  else if key = "AZURE_DEPLOYMENT_NAME" then some (.str c.AzureDeploymentName)
  else if key = "AZURE_RESOURCE_NAME" then some (.str c.AzureResourceName)
  else if key = "AZURE_OPENAI_TOKEN" then some (.str c.AzureOpenaiToken)
  else none

/-- The record of documented defaults. -/
def defaultConfig : Config :=
  { Initialized := false
    FeishuAppId := ""
    FeishuAppSecret := ""
    FeishuAppEncryptKey := ""
    FeishuAppVerificationToken := ""
    FeishuBotName := ""
    OpenaiApiKeys := []
    HttpPort := 9000
    HttpsPort := 9001
    UseHttps := false
    CertFile := "cert.pem"
    KeyFile := "key.pem"
    OpenaiApiUrl := "https://api.openai.com"
    HttpProxy := ""
    OpenAIHttpClientTimeOut := 550
    HttpLoggerEnable := false
    HttpLoggerUrl := ""
    HttpLoggerMethod := ""
    HttpLoggerInterval := 10
    HttpLoggerThreshold := 10
    AzureOn := false
    AzureApiVersion := "2023-03-15-preview"
    AzureDeploymentName := ""
    AzureResourceName := ""
    AzureOpenaiToken := "" }

/-- A world with no environment variable and no configuration file. -/
def emptyWorld : World :=
  { env := fun _ => none, readConfig := fun _ => none }

/-- A world in which `HTTP_PORT` is set to the empty string in the environment and
to `8080` in the file `./config.yaml`. -/
def emptyEnvWorld : World :=
  { env := fun k => if k = "HTTP_PORT" then some "" else none
    readConfig := fun path =>
      if path = "./config.yaml" then some (fun k => if k = "HTTP_PORT" then some "8080" else none)
      else none }

/-- A world in which `HTTP_PORT` is `7000` in the environment and `8080` in the
file `./config.yaml`. -/
def bothWorld : World :=
  { env := fun k => if k = "HTTP_PORT" then some "7000" else none
    readConfig := fun path =>
      if path = "./config.yaml" then some (fun k => if k = "HTTP_PORT" then some "8080" else none)
      else none }

/-! ## Theorems -/

/-! ### Splitting and filtering -/

theorem indexComma_none {s : List Char} (h : indexComma s = none) : ',' ∉ s := by
  induction s with
  | nil => simp
  | cons c cs ih =>
    by_cases hc : c = ','
    · simp [indexComma, hc] at h
    · simp only [indexComma, hc, if_false, Option.map_eq_none'] at h
      simp only [List.mem_cons, not_or]
      exact ⟨fun e => hc e.symm, ih h⟩

theorem indexComma_some {s : List Char} {m : Nat} (h : indexComma s = some m) :
    s = s.take m ++ ',' :: s.drop (m + 1) ∧ ',' ∉ s.take m := by
  induction s generalizing m with
  | nil => simp [indexComma] at h
  | cons c cs ih =>
    by_cases hc : c = ','
    · simp only [indexComma, hc, if_true, Option.some.injEq] at h
      subst h
      simp [hc]
    · simp only [indexComma, hc, if_false, Option.map_eq_some'] at h
      obtain ⟨k, hk, rfl⟩ := h
      obtain ⟨h1, h2⟩ := ih hk
      refine ⟨?_, ?_⟩
      · simp only [List.take_succ_cons, List.drop_succ_cons, List.cons_append, List.cons.injEq,
          true_and]
        exact h1
      · simp only [List.take_succ_cons, List.mem_cons, not_or]
        exact ⟨fun e => hc e.symm, h2⟩

theorem genSplitLoop_ne_nil (n : Nat) (s : List Char) : genSplitLoop n s ≠ [] := by
  cases n with
  | zero => simp [genSplitLoop]
  | succ n =>
    simp only [genSplitLoop]
    split <;> simp

theorem intercalate_cons_of_ne_nil (sep a : List Char) (l : List (List Char)) (h : l ≠ []) :
    sep.intercalate (a :: l) = a ++ sep ++ sep.intercalate l := by
  cases l with
  | nil => exact absurd rfl h
  | cons b t => simp [List.intercalate, List.intersperse]

theorem genSplitLoop_spec (n : Nat) (s : List Char) (h : s.count ',' ≤ n) :
    [','].intercalate (genSplitLoop n s) = s ∧ ∀ p ∈ genSplitLoop n s, ',' ∉ p := by
  induction n generalizing s with
  | zero =>
    have h0 : ',' ∉ s := by
      intro hm
      have := List.count_pos_iff.mpr hm
      omega
    simp [genSplitLoop, List.intercalate, h0]
  | succ n ih =>
    simp only [genSplitLoop]
    cases hi : indexComma s with
    | none =>
      have h0 := indexComma_none hi
      simp [List.intercalate, h0]
    | some m =>
      obtain ⟨h1, h2⟩ := indexComma_some hi
      have hc : (s.drop (m + 1)).count ',' ≤ n := by
        have e : s.count ',' = (s.take m ++ ',' :: s.drop (m + 1)).count ',' := by rw [← h1]
        rw [List.count_append, List.count_cons_self, List.count_eq_zero_of_not_mem h2] at e
        omega
      obtain ⟨i1, i2⟩ := ih _ hc
      refine ⟨?_, ?_⟩
      · simp only []
        rw [intercalate_cons_of_ne_nil _ _ _ (genSplitLoop_ne_nil _ _), i1]
        simpa using h1.symm
      · intro p hp
        simp only [List.mem_cons] at hp
        rcases hp with rfl | hp
        · exact h2
        · exact i2 p hp

theorem hasPrefix_eq_isPrefixOf (s p : String) : HasPrefix s p = p.data.isPrefixOf s.data := by
  rw [Bool.eq_iff_iff]
  simp only [HasPrefix, ge_iff_le, Bool.and_eq_true, decide_eq_true_eq, beq_iff_eq,
    List.isPrefixOf_iff_prefix]
  constructor
  · rintro ⟨_, h2⟩
    rw [List.prefix_iff_eq_take]
    exact h2.symm
  · intro h
    exact ⟨h.length_le, (List.prefix_iff_eq_take.mp h).symm⟩

theorem filterFormatKey_eq_filter (keys : List String) :
    filterFormatKey keys = keys.filter acceptedKey := by
  have gen : ∀ (acc : List String),
      keys.foldl
        (fun result key =>
          if HasPrefix key "sk-" || HasPrefix key "fk" then result ++ [key] else result) acc
        = acc ++ keys.filter acceptedKey := by
    induction keys with
    | nil => simp
    | cons k ks ih =>
      intro acc
      simp only [List.foldl_cons, List.filter_cons]
      rw [ih]
      simp only [hasPrefix_eq_isPrefixOf, acceptedKey]
      split <;> simp
  simpa [filterFormatKey] using gen []

theorem not_acceptedKey_empty : acceptedKey "" = false := by decide

/-- C1: for a non-empty looked-up value, `getViperStringArray` returns the elements
of the value split on `,` that start with `sk-` or `fk`, in order and with
duplicates kept (the `filter` of the split list); the split list is the unique
comma-free decomposition of the value; `"sk-aaa,bad-key,fk-bbb"` gives
`["sk-aaa", "fk-bbb"]`, and elements are neither trimmed nor matched on another
prefix. -/
theorem getViperStringArray_filters (GetString : String → String) (key : String)
    (defaultValue : List String) (h : GetString key ≠ "") :
    getViperStringArray GetString key defaultValue
        = (SplitComma (GetString key)).filter acceptedKey
      ∧ [','].intercalate ((SplitComma (GetString key)).map String.data) = (GetString key).data
      ∧ (∀ p ∈ SplitComma (GetString key), ',' ∉ p.data)
      ∧ getViperStringArray (fun _ => "sk-aaa,bad-key,fk-bbb") "OPENAI_KEY" []
          = ["sk-aaa", "fk-bbb"]
      ∧ getViperStringArray (fun _ => "sk-a,sk-a, sk-b,SK-c,fk,pk-d,,sk-e ") "OPENAI_KEY" []
          = ["sk-a", "sk-a", "fk", "sk-e "] := by
  have hs := genSplitLoop_spec ((GetString key).data.count ',') (GetString key).data le_rfl
  refine ⟨?_, ?_, ?_, by decide, by decide⟩
  · simp [getViperStringArray, h, filterFormatKey_eq_filter]
  · have : (SplitComma (GetString key)).map String.data = splitCommaChars (GetString key).data := by
      simp [SplitComma, List.map_map, Function.comp_def]
    rw [this]
    exact hs.1
  · intro p hp
    simp only [SplitComma, List.mem_map] at hp
    obtain ⟨q, hq, rfl⟩ := hp
    exact hs.2 q hq

theorem getViperStringArray_filters_witness :
    (fun _ : String => "sk-aaa,bad-key,fk-bbb") "OPENAI_KEY" ≠ ""
      ∧ getViperStringArray (fun _ => "sk-aaa,bad-key,fk-bbb") "OPENAI_KEY" ["d"]
          = (SplitComma "sk-aaa,bad-key,fk-bbb").filter acceptedKey :=
  ⟨by decide,
    (getViperStringArray_filters (fun _ => "sk-aaa,bad-key,fk-bbb") "OPENAI_KEY" ["d"]
      (by decide)).1⟩

/-- C2: an empty looked-up value makes `getViperStringArray` return its default
unchanged, so `LoadConfig` resolves the empty list and not `[""]`; and a default
free of the empty string gives a result free of the empty string. -/
theorem getViperStringArray_empty (GetString : String → String) (key : String)
    (defaultValue : List String) :
    (GetString key = "" → getViperStringArray GetString key defaultValue = defaultValue)
      ∧ ("" ∉ defaultValue → "" ∉ getViperStringArray GetString key defaultValue)
      ∧ (GetString "OPENAI_KEY" = "" → (resolveFields GetString).OpenaiApiKeys = [])
      ∧ getViperStringArray (fun _ => "") "OPENAI_KEY" [] ≠ [""] := by
  refine ⟨?_, ?_, ?_, by decide⟩
  · intro h
    simp [getViperStringArray, h]
  · intro hd
    by_cases h : GetString key = ""
    · simpa [getViperStringArray, h] using hd
    · simp only [getViperStringArray, h, if_false, filterFormatKey_eq_filter, List.mem_filter,
        not_and]
      intro _
      simp [not_acceptedKey_empty]
  · intro h
    simp [resolveFields, getViperStringArray, h]

theorem getViperStringArray_empty_witness :
    getViperStringArray (fun _ => "") "OPENAI_KEY" ["sk-d"] = ["sk-d"]
      ∧ "" ∉ getViperStringArray (fun _ => ",sk-a,,") "OPENAI_KEY" ["sk-d"]
      ∧ (resolveFields (fun _ => "")).OpenaiApiKeys = [] :=
  ⟨(getViperStringArray_empty (fun _ => "") "OPENAI_KEY" ["sk-d"]).1 rfl,
    (getViperStringArray_empty (fun _ => ",sk-a,,") "OPENAI_KEY" ["sk-d"]).2.1 (by decide),
    (getViperStringArray_empty (fun _ => "") "OPENAI_KEY" ["sk-d"]).2.2.1 rfl⟩

/-! ### Booleans -/

/-- C6: `getViperBoolValue` is total; it returns `true` on `1 t T TRUE true True`,
`false` on `0 f F FALSE false False`, and the default on every other looked-up
string, among them the empty string, `yes`, `on` and `tRuE`. -/
theorem getViperBoolValue_table (GetString : String → String) (key : String) (d : Bool) :
    (GetString key ∈ ["1", "t", "T", "TRUE", "true", "True"] →
        getViperBoolValue GetString key d = true)
      ∧ (GetString key ∈ ["0", "f", "F", "FALSE", "false", "False"] →
        getViperBoolValue GetString key d = false)
      ∧ (GetString key ∉ ["1", "t", "T", "TRUE", "true", "True"] →
          GetString key ∉ ["0", "f", "F", "FALSE", "false", "False"] →
          getViperBoolValue GetString key d = d)
      ∧ getViperBoolValue (fun _ => "") key d = d
      ∧ getViperBoolValue (fun _ => "yes") key d = d
      ∧ getViperBoolValue (fun _ => "on") key d = d
      ∧ getViperBoolValue (fun _ => "tRuE") key d = d := by
  refine ⟨?_, ?_, ?_, ?_, ?_, ?_, ?_⟩
  · intro h
    simp only [List.mem_cons, List.mem_singleton, List.not_mem_nil, or_false] at h
    rcases h with h | h | h | h | h | h <;> simp [getViperBoolValue, ParseBool, h]
  · intro h
    simp only [List.mem_cons, List.mem_singleton, List.not_mem_nil, or_false] at h
    rcases h with h | h | h | h | h | h <;> simp [getViperBoolValue, ParseBool, h]
  · intro h1 h2
    simp only [List.mem_cons, List.mem_singleton, List.not_mem_nil, or_false] at h1 h2
    simp only [getViperBoolValue, ParseBool, if_neg h1, if_neg h2]
    split <;> rfl
  · simp [getViperBoolValue]
  · simp [getViperBoolValue, ParseBool]
  · simp [getViperBoolValue, ParseBool]
  · simp [getViperBoolValue, ParseBool]

theorem getViperBoolValue_table_witness :
    getViperBoolValue (fun _ => "TRUE") "USE_HTTPS" false = true
      ∧ getViperBoolValue (fun _ => "f") "USE_HTTPS" true = false
      ∧ getViperBoolValue (fun _ => "enabled") "USE_HTTPS" true = true :=
  ⟨(getViperBoolValue_table (fun _ => "TRUE") "USE_HTTPS" false).1 (by decide),
    (getViperBoolValue_table (fun _ => "f") "USE_HTTPS" true).2.1 (by decide),
    (getViperBoolValue_table (fun _ => "enabled") "USE_HTTPS" true).2.2.1 (by decide)
      (by decide)⟩

/-! ### Certificate and key paths -/

/-- C7: with `os.Stat` modelled by an existence predicate, `GetCertFile` returns the
configured path when it is non-empty and exists and `cert.pem` otherwise,
`GetKeyFile` does the same with `KeyFile` and `key.pem`, and both leave the
record as it was. -/
theorem getCertFile_getKeyFile (stat : String → Bool) (c : Config) :
    (c.GetCertFile stat).1
        = (if c.CertFile ≠ "" ∧ stat c.CertFile = true then c.CertFile else "cert.pem")
      ∧ (c.GetKeyFile stat).1
        = (if c.KeyFile ≠ "" ∧ stat c.KeyFile = true then c.KeyFile else "key.pem")
      ∧ (c.GetCertFile stat).2 = c
      ∧ (c.GetKeyFile stat).2 = c := by
  refine ⟨?_, ?_, ?_, ?_⟩
  · unfold Config.GetCertFile
    by_cases h1 : c.CertFile = "" <;> by_cases h2 : stat c.CertFile = true <;> simp [h1, h2]
  · unfold Config.GetKeyFile
    by_cases h1 : c.KeyFile = "" <;> by_cases h2 : stat c.KeyFile = true <;> simp [h1, h2]
  · unfold Config.GetCertFile
    split
    · rfl
    · split <;> rfl
  · unfold Config.GetKeyFile
    split
    · rfl
    · split <;> rfl

/-! ### Defaults -/

/-- C3: when the merged source yields the empty string for every key, `LoadConfig`
returns the record of documented defaults (ports 9000 and 9001, `cert.pem`,
`key.pem`, the OpenAI URL, timeout 550, logger interval and threshold 10, the
Azure API version, every other string empty, every boolean false, no keys). -/
theorem loadConfig_defaults (w : World) (cfg : String) (v : Viper)
    (h : ∀ key, (loadSource w cfg v).GetString w key = "") :
    (LoadConfig w cfg v).1 = defaultConfig := by
  simp [LoadConfig, resolveFields, defaultConfig, getViperStringValue, getViperStringArray,
    getViperIntValue, getViperBoolValue, h]

theorem loadConfig_defaults_witness :
    (∀ key, (loadSource emptyWorld "./config.yaml" Viper.new).GetString emptyWorld key = "")
      ∧ (LoadConfig emptyWorld "./config.yaml" Viper.new).1 = defaultConfig :=
  ⟨fun _ => rfl, loadConfig_defaults emptyWorld "./config.yaml" Viper.new (fun _ => rfl)⟩

/-! ### The `Initialized` flag -/

/-- C9, as stated, fails: with no file and no environment, the record `LoadConfig`
returns has `Initialized = false`. -/
theorem loadConfig_initialized_counterexample :
    ¬ ((LoadConfig emptyWorld "./config.yaml" Viper.new).1.Initialized = true) := by
  decide

/-- C9, amended: for every path and source content the record `LoadConfig` returns
has `Initialized = false`, and a `GetConfig` call that finds the guard unset
returns that record with `Initialized` set to `true`. -/
theorem getConfig_initialized (w : World) (cfg : String) (s : State) (h : s.onceDone = false) :
    (LoadConfig w cfg s.viper).1.Initialized = false
      ∧ (GetConfig w cfg s).1 = some { (LoadConfig w cfg s.viper).1 with Initialized := true }
      ∧ ∃ c, (GetConfig w cfg s).1 = some c ∧ c.Initialized = true := by
  refine ⟨rfl, ?_, ?_⟩
  · simp [GetConfig, h]
  · exact ⟨{ (LoadConfig w cfg s.viper).1 with Initialized := true }, by simp [GetConfig, h], rfl⟩

theorem getConfig_initialized_witness :
    State.init.onceDone = false
      ∧ (LoadConfig bothWorld "./config.yaml" State.init.viper).1.Initialized = false
      ∧ ∃ c, (GetConfig bothWorld "./config.yaml" State.init).1 = some c
          ∧ c.Initialized = true :=
  ⟨rfl, (getConfig_initialized bothWorld "./config.yaml" State.init rfl).1,
    (getConfig_initialized bothWorld "./config.yaml" State.init rfl).2.2⟩

/-! ### One-time resolution -/

theorem runGetConfig_resolved (calls : List (World × String)) (s : State)
    (h : s.onceDone = true) :
    runGetConfig calls s = (List.replicate calls.length s.config, s) := by
  induction calls with
  | nil => rfl
  | cons call rest ih =>
    have e : GetConfig call.1 call.2 s = (s.config, s) := by simp [GetConfig, h]
    simp only [runGetConfig, e, ih, List.length_cons, List.replicate_succ]

/-- C8: in a sequential run of `GetConfig` calls that starts in the fresh state,
whatever world and flag value each call meets, `LoadConfig` runs once, every
call returns the record resolved at the first call with `Initialized = true`,
and the state is resolved after the first call and after every later one. -/
theorem getConfig_once (w : World) (cfg : String) (rest : List (World × String)) :
    State.init.onceDone = false
      ∧ (runGetConfig ((w, cfg) :: rest) State.init).1
          = List.replicate (rest.length + 1)
              (some { (LoadConfig w cfg Viper.new).1 with Initialized := true })
      ∧ (runGetConfig ((w, cfg) :: rest) State.init).2.onceDone = true
      ∧ (runGetConfig ((w, cfg) :: rest) State.init).2.loadCalls = 1
      ∧ (runGetConfig ((w, cfg) :: rest) State.init).2.config
          = some { (LoadConfig w cfg Viper.new).1 with Initialized := true } := by
  have hres := runGetConfig_resolved rest (GetConfig w cfg State.init).2 rfl
  have hrun : runGetConfig ((w, cfg) :: rest) State.init
      = ((GetConfig w cfg State.init).1 :: (runGetConfig rest (GetConfig w cfg State.init).2).1,
          (runGetConfig rest (GetConfig w cfg State.init).2).2) := rfl
  rw [hrun, hres]
  exact ⟨rfl, rfl, rfl, rfl, rfl⟩

/-! ### Precedence of the environment -/

theorem getString_env (w : World) (cfg : String) (v : Viper) (key ev : String)
    (he : w.env key = some ev) (hne : ev ≠ "") :
    (loadSource w cfg v).GetString w key = ev := by
  simp [Viper.GetString, Viper.find, loadSource, Viper.AutomaticEnv, Viper.getEnv, he, hne]

/-- C4, as stated, fails: with `HTTP_PORT` set to the empty string in the
environment and to `8080` in the file, the environment's value coerces to the
default 9000, but `LoadConfig` resolves the file's 8080. -/
theorem env_precedence_counterexample :
    emptyEnvWorld.env "HTTP_PORT" = some ""
      ∧ (emptyEnvWorld.readConfig "./config.yaml").bind (fun f => f "HTTP_PORT") = some "8080"
      ∧ coerceAs "HTTP_PORT" "" (.int 9000) = .int 9000
      ∧ coerceAs "HTTP_PORT" "8080" (.int 9000) = .int 8080
      ∧ (LoadConfig emptyEnvWorld "./config.yaml" Viper.new).1.field "HTTP_PORT"
          = some (.int 8080)
      ∧ (LoadConfig emptyEnvWorld "./config.yaml" Viper.new).1.field "HTTP_PORT"
          ≠ some (coerceAs "HTTP_PORT" "" (.int 9000)) := by
  decide

/-- C4, amended: for every recognized key that the file supplies and the
environment supplies with a different, non-empty value, the field `LoadConfig`
resolves is the environment's value coerced to the field's type, whatever the
file's value is. -/
theorem env_precedence (w : World) (cfg : String) (v : Viper) (key : String) (kind : Kind)
    (ev fv : String) (settings : String → Option String)
    (hk : (key, kind) ∈ fieldKinds) (he : w.env key = some ev) (hne : ev ≠ "")
    (_hf : w.readConfig cfg = some settings) (_hs : settings key = some fv) (_hd : fv ≠ ev) :
    (LoadConfig w cfg v).1.field key = some (coerceAs key ev kind) := by
  have g := getString_env w cfg v key ev he hne
  simp only [fieldKinds, List.mem_cons, Prod.mk.injEq, List.mem_singleton, List.not_mem_nil,
    or_false] at hk
  rcases hk with ⟨rfl, rfl⟩ | ⟨rfl, rfl⟩ | ⟨rfl, rfl⟩ | ⟨rfl, rfl⟩ | ⟨rfl, rfl⟩ | ⟨rfl, rfl⟩
    | ⟨rfl, rfl⟩ | ⟨rfl, rfl⟩ | ⟨rfl, rfl⟩ | ⟨rfl, rfl⟩ | ⟨rfl, rfl⟩ | ⟨rfl, rfl⟩
    | ⟨rfl, rfl⟩ | ⟨rfl, rfl⟩ | ⟨rfl, rfl⟩ | ⟨rfl, rfl⟩ | ⟨rfl, rfl⟩ | ⟨rfl, rfl⟩
    | ⟨rfl, rfl⟩ | ⟨rfl, rfl⟩ | ⟨rfl, rfl⟩ | ⟨rfl, rfl⟩ | ⟨rfl, rfl⟩ | ⟨rfl, rfl⟩ <;>
    simp [LoadConfig, resolveFields, Config.field, coerceAs, getViperStringValue,
      getViperStringArray, getViperIntValue, getViperBoolValue, g]

theorem env_precedence_witness :
    bothWorld.env "HTTP_PORT" = some "7000"
      ∧ (bothWorld.readConfig "./config.yaml").bind (fun f => f "HTTP_PORT") = some "8080"
      ∧ (LoadConfig bothWorld "./config.yaml" Viper.new).1.field "HTTP_PORT"
          = some (coerceAs "HTTP_PORT" "7000" (.int 9000))
      ∧ (LoadConfig bothWorld "./config.yaml" Viper.new).1.HttpPort = 7000 :=
  ⟨by decide, by decide,
  env_precedence bothWorld "./config.yaml" Viper.new "HTTP_PORT" (.int 9000) "7000" "8080"
    (fun k => if k = "HTTP_PORT" then some "8080" else none)
    (by decide) (by decide) (by decide) rfl (by decide) (by decide), by decide⟩

/-! ### Integers -/

theorem isDecimalDigit_iff (c : Char) :
    isDecimalDigit c = true ↔ 48 ≤ c.toNat ∧ c.toNat ≤ 57 := by
  constructor
  · intro h
    simp only [isDecimalDigit, List.mem_cons, List.mem_singleton, List.not_mem_nil, or_false,
      decide_eq_true_eq] at h
    rcases h with rfl | rfl | rfl | rfl | rfl | rfl | rfl | rfl | rfl | rfl <;> decide
  · rintro ⟨h1, h2⟩
    have e : c = Char.ofNat c.toNat := (Char.ofNat_toNat c).symm
    generalize c.toNat = n at h1 h2 e
    subst e
    interval_cases n <;> decide

theorem all_digits_iff (ds : List Char) :
    ds.all isDecimalDigit = true ↔ ∀ c ∈ ds, 48 ≤ c.toNat ∧ c.toNat ≤ 57 := by
  simp [List.all_eq_true, isDecimalDigit_iff]

theorem decimalValue_lt (ds : List Char) (h : ∀ c ∈ ds, 48 ≤ c.toNat ∧ c.toNat ≤ 57) :
    decimalValue ds < 10 ^ ds.length := by
  induction ds with
  | nil => simp [decimalValue]
  | cons c cs ih =>
    have hc := h c (List.mem_cons_self _ _)
    have := ih (fun x hx => h x (List.mem_cons_of_mem _ hx))
    simp only [decimalValue, List.length_cons, pow_succ]
    have hd : c.toNat - 48 ≤ 9 := by omega
    have := Nat.mul_le_mul_right (10 ^ cs.length) hd
    omega

theorem atoiFastLoop_digits (ds : List Char) (n : Int)
    (h : ∀ c ∈ ds, 48 ≤ c.toNat ∧ c.toNat ≤ 57) :
    atoiFastLoop ds n = some (n * 10 ^ ds.length + (decimalValue ds : Int)) := by
  induction ds generalizing n with
  | nil => simp [atoiFastLoop, decimalValue]
  | cons c cs ih =>
    have hc := h c (List.mem_cons_self _ _)
    have hn : ¬ (c.toNat < 48 ∨ 57 < c.toNat) := by omega
    simp only [atoiFastLoop, hn, if_false]
    rw [ih _ (fun x hx => h x (List.mem_cons_of_mem _ hx))]
    simp only [decimalValue, List.length_cons, pow_succ, Nat.cast_add, Nat.cast_mul,
      Nat.cast_pow, Nat.cast_ofNat, Option.some.injEq]
    ring

theorem atoiFastLoop_not_digits (ds : List Char) (n : Int)
    (h : ¬ ∀ c ∈ ds, 48 ≤ c.toNat ∧ c.toNat ≤ 57) :
    atoiFastLoop ds n = none := by
  induction ds generalizing n with
  | nil => simp at h
  | cons c cs ih =>
    by_cases hc : c.toNat < 48 ∨ 57 < c.toNat
    · simp [atoiFastLoop, hc]
    · simp only [atoiFastLoop, hc, if_false]
      apply ih
      intro hall
      apply h
      intro x hx
      rcases List.mem_cons.mp hx with rfl | hx
      · omega
      · exact hall x hx

theorem digitValue_digit (c : Char) (h : 48 ≤ c.toNat ∧ c.toNat ≤ 57) :
    digitValue c = some (c.toNat - 48) := by
  simp [digitValue, h]

theorem digitValue_not_digit (c : Char) (h : ¬ (48 ≤ c.toNat ∧ c.toNat ≤ 57)) :
    digitValue c = none ∨ ∃ d, 10 ≤ d ∧ digitValue c = some d := by
  unfold digitValue
  rw [if_neg h]
  split
  · exact Or.inr ⟨_, by omega, rfl⟩
  · exact Or.inl rfl

theorem parseUintLoop_digits (ds : List Char) (n : Nat)
    (h : ∀ c ∈ ds, 48 ≤ c.toNat ∧ c.toNat ≤ 57) (hn : n < 2 ^ 64) :
    (n * 10 ^ ds.length + decimalValue ds < 2 ^ 64 →
        parseUintLoop ds n = (n * 10 ^ ds.length + decimalValue ds, none))
      ∧ (2 ^ 64 ≤ n * 10 ^ ds.length + decimalValue ds →
        parseUintLoop ds n = (maxUint64, some NumError.ErrRange)) := by
  induction ds generalizing n with
  | nil =>
    refine ⟨fun _ => by simp [parseUintLoop, decimalValue], fun h2 => ?_⟩
    simp only [decimalValue, List.length_nil, pow_zero] at h2
    omega
  | cons c cs ih =>
    have hc := h c (List.mem_cons_self _ _)
    have hcs := fun x hx => h x (List.mem_cons_of_mem _ hx)
    have hd : c.toNat - 48 < 10 := by omega
    have hpos : 1 ≤ 10 ^ cs.length := Nat.one_le_pow _ _ (by norm_num)
    have hN : n * 10 ^ (c :: cs).length + decimalValue (c :: cs)
        = (n * 10 + (c.toNat - 48)) * 10 ^ cs.length + decimalValue cs := by
      simp only [decimalValue, List.length_cons, pow_succ]
      ring
    have hge : n * 10 + (c.toNat - 48)
        ≤ (n * 10 + (c.toNat - 48)) * 10 ^ cs.length + decimalValue cs := by
      have := Nat.mul_le_mul_left (n * 10 + (c.toNat - 48)) hpos
      omega
    rw [hN]
    simp only [parseUintLoop, digitValue_digit c hc, ge_iff_le, Nat.not_le.mpr hd, if_false,
      maxUint64, intSize]
    norm_num only [] at hn hge ⊢
    by_cases hcut : 1844674407370955162 ≤ n
    · rw [if_pos hcut]
      refine ⟨fun h1 => ?_, fun _ => rfl⟩
      omega
    · rw [if_neg hcut]
      by_cases hov : 18446744073709551616 ≤ n * 10 + (c.toNat - 48)
      · have e1 : n * 10 % 18446744073709551616 = n * 10 := Nat.mod_eq_of_lt (by omega)
        have e2 : (n * 10 + (c.toNat - 48)) % 18446744073709551616
            = n * 10 + (c.toNat - 48) - 18446744073709551616 := by omega
        simp only [e1, e2]
        rw [if_pos (Or.inl (by omega))]
        refine ⟨fun h1 => ?_, fun _ => rfl⟩
        omega
      · have e1 : n * 10 % 18446744073709551616 = n * 10 := Nat.mod_eq_of_lt (by omega)
        have e2 : (n * 10 + (c.toNat - 48)) % 18446744073709551616
            = n * 10 + (c.toNat - 48) := Nat.mod_eq_of_lt (by omega)
        simp only [e1, e2]
        rw [if_neg (by omega)]
        have := ih (n * 10 + (c.toNat - 48)) hcs (by norm_num only []; omega)
        norm_num only [] at this
        exact this

theorem parseUintLoop_not_digits (ds : List Char) (n : Nat)
    (h : ¬ ∀ c ∈ ds, 48 ≤ c.toNat ∧ c.toNat ≤ 57) :
    parseUintLoop ds n = (0, some NumError.ErrSyntax)
      ∨ parseUintLoop ds n = (maxUint64, some NumError.ErrRange) := by
  induction ds generalizing n with
  | nil => simp at h
  | cons c cs ih =>
    by_cases hc : 48 ≤ c.toNat ∧ c.toNat ≤ 57
    · have hcs : ¬ ∀ x ∈ cs, 48 ≤ x.toNat ∧ x.toNat ≤ 57 := by
        intro hall
        apply h
        intro x hx
        rcases List.mem_cons.mp hx with rfl | hx
        · exact hc
        · exact hall x hx
      have hd : ¬ (10 ≤ c.toNat - 48) := by omega
      simp only [parseUintLoop, digitValue_digit c hc, ge_iff_le, hd, if_false]
      split
      · exact Or.inr rfl
      · split
        · exact Or.inr rfl
        · exact ih _ hcs
    · rcases digitValue_not_digit c hc with e | ⟨d, hd, e⟩
      · simp [parseUintLoop, e]
      · simp [parseUintLoop, e, hd]

/-- The unsigned parse, summarized: a non-empty digit string below `2^64` gives its
value, everything else one of the two errors. -/
theorem parseUint_spec (ds : List Char) :
    (isDecimal ds = true ∧ decimalValue ds < 2 ^ 64 ∧ ParseUint ds = (decimalValue ds, none))
      ∨ (isDecimal ds = false ∧ ParseUint ds = (0, some NumError.ErrSyntax))
      ∨ ((isDecimal ds = false ∨ 2 ^ 64 ≤ decimalValue ds)
          ∧ ParseUint ds = (maxUint64, some NumError.ErrRange)) := by
  by_cases hnil : ds = []
  · subst hnil
    exact Or.inr (Or.inl ⟨by decide, by simp [ParseUint]⟩)
  · have hPU : ParseUint ds = parseUintLoop ds 0 := by simp [ParseUint, hnil]
    have hdec : isDecimal ds = ds.all isDecimalDigit := by
      cases ds with
      | nil => exact absurd rfl hnil
      | cons c cs => simp [isDecimal]
    by_cases hall : ∀ c ∈ ds, 48 ≤ c.toNat ∧ c.toNat ≤ 57
    · have hd : isDecimal ds = true := by rw [hdec]; exact (all_digits_iff ds).mpr hall
      obtain ⟨h1, h2⟩ := parseUintLoop_digits ds 0 hall (by norm_num)
      simp only [zero_mul, zero_add] at h1 h2
      by_cases hlt : decimalValue ds < 2 ^ 64
      · exact Or.inl ⟨hd, hlt, by rw [hPU]; exact h1 hlt⟩
      · exact Or.inr (Or.inr ⟨Or.inr (by omega), by rw [hPU]; exact h2 (by omega)⟩)
    · have hd : isDecimal ds = false := by
        rw [hdec, ← Bool.not_eq_true, all_digits_iff]
        exact hall
      rcases parseUintLoop_not_digits ds 0 hall with e | e
      · exact Or.inr (Or.inl ⟨hd, by rw [hPU]; exact e⟩)
      · exact Or.inr (Or.inr ⟨Or.inl hd, by rw [hPU]; exact e⟩)

theorem parseInt_signed (s0 body : List Char) (neg : Bool) (d : Int) (hne : s0 ≠ [])
    (hneg : decide (s0.head? = some '-') = neg)
    (hbody : (if s0.head? = some '+' ∨ s0.head? = some '-' then s0.tail else s0) = body) :
    orDefault (ParseInt s0) d
      = if isDecimal body = true
          ∧ inIntRange (if neg then -(decimalValue body : Int) else (decimalValue body : Int))
              = true
        then (if neg then -(decimalValue body : Int) else (decimalValue body : Int))
        else d := by
  simp only [ParseInt, hne, if_false, hneg, hbody]
  rcases parseUint_spec body with ⟨hd, hlt, e⟩ | ⟨hd, e⟩ | ⟨hd, e⟩
  · rw [e]
    clear hbody hneg e hne
    norm_num only [] at hlt
    generalize decimalValue body = N at hlt ⊢
    cases neg
    · simp only [orDefault, toInt64, intSize, inIntRange, hd, Bool.not_false, Bool.true_and,
        Bool.false_and, Bool.false_eq_true, if_false, true_and, Bool.and_eq_true,
        decide_eq_true_eq, ge_iff_le, gt_iff_lt]
      norm_num only []
      split_ifs <;> simp_all <;> omega
    · simp only [orDefault, toInt64, intSize, inIntRange, hd, Bool.not_true, Bool.true_and,
        Bool.false_and, Bool.false_eq_true, if_false, if_true, true_and, Bool.and_eq_true,
        decide_eq_true_eq, ge_iff_le, gt_iff_lt]
      norm_num only []
      split_ifs <;> simp_all <;> omega
  · rw [e]
    simp [orDefault, hd]
  · rw [e]
    have hgoal : ¬ (isDecimal body = true
        ∧ inIntRange (if neg then -(decimalValue body : Int) else (decimalValue body : Int))
            = true) := by
      rintro ⟨h1, h2⟩
      rcases hd with hd | hd
      · rw [hd] at h1
        exact Bool.false_ne_true h1
      · norm_num only [] at hd
        cases neg <;>
          simp only [inIntRange, Bool.and_eq_true, decide_eq_true_eq, if_true, if_false,
            Bool.false_eq_true] at h2 <;> omega
    rw [if_neg hgoal]
    cases neg <;> simp [orDefault, intSize, maxUint64]

theorem length_le_utf8ByteSize (v : String) : v.data.length ≤ v.utf8ByteSize := by
  have gen : ∀ l : List Char, l.length ≤ String.utf8ByteSize.go l := by
    intro l
    induction l with
    | nil => simp [String.utf8ByteSize.go]
    | cons c cs ih =>
      have := Char.utf8Size_pos c
      simp only [String.utf8ByteSize.go, List.length_cons]
      omega
  exact gen v.data

theorem expected_signed (c : Char) (ds : List Char) (d : Int) :
    (match literalValueOf (c :: ds) with
      | none => d
      | some n => if inIntRange n then n else d)
      = if isDecimal (if c = '+' ∨ c = '-' then ds else c :: ds) = true
          ∧ inIntRange
              (if decide (c = '-') then
                -(decimalValue (if c = '+' ∨ c = '-' then ds else c :: ds) : Int)
              else (decimalValue (if c = '+' ∨ c = '-' then ds else c :: ds) : Int)) = true
        then
          (if decide (c = '-') then
            -(decimalValue (if c = '+' ∨ c = '-' then ds else c :: ds) : Int)
          else (decimalValue (if c = '+' ∨ c = '-' then ds else c :: ds) : Int))
        else d := by
  by_cases hm : c = '-'
  · subst hm
    by_cases hd : isDecimal ds = true
    · simp [literalValueOf, hd]
    · simp [literalValueOf, hd]
  · by_cases hp : c = '+'
    · subst hp
      by_cases hd : isDecimal ds = true
      · simp [literalValueOf, hd]
      · simp [literalValueOf, hd]
    · by_cases hd : isDecimal (c :: ds) = true
      · simp [literalValueOf, hm, hp, hd]
      · simp [literalValueOf, hm, hp, hd]

theorem atoiFast_body (body : List Char) (hlen : body.length ≤ 18) :
    (isDecimal body = true ∧ body ≠ []
        ∧ atoiFastLoop body 0 = some (decimalValue body : Int)
        ∧ decimalValue body < 1000000000000000000)
      ∨ (isDecimal body = false ∧ (body = [] ∨ atoiFastLoop body 0 = none)) := by
  by_cases hnil : body = []
  · subst hnil
    exact Or.inr ⟨by decide, Or.inl rfl⟩
  · have hdec : isDecimal body = body.all isDecimalDigit := by
      cases body with
      | nil => exact absurd rfl hnil
      | cons c cs => simp [isDecimal]
    by_cases hall : ∀ c ∈ body, 48 ≤ c.toNat ∧ c.toNat ≤ 57
    · refine Or.inl ⟨by rw [hdec]; exact (all_digits_iff body).mpr hall, hnil, ?_, ?_⟩
      · rw [atoiFastLoop_digits body 0 hall]
        simp
      · have h1 := decimalValue_lt body hall
        have h2 : 10 ^ body.length ≤ 10 ^ 18 := Nat.pow_le_pow_right (by norm_num) hlen
        norm_num only [] at h2
        omega
    · refine Or.inr ⟨?_, Or.inr (atoiFastLoop_not_digits body 0 hall)⟩
      rw [hdec, ← Bool.not_eq_true, all_digits_iff]
      exact hall

theorem atoiFast_signed (c : Char) (ds : List Char) (d : Int) (hlen : (c :: ds).length < 19) :
    orDefault (atoiFast (c :: ds)) d
      = if isDecimal (if c = '+' ∨ c = '-' then ds else c :: ds) = true
          ∧ inIntRange
              (if decide (c = '-') then
                -(decimalValue (if c = '+' ∨ c = '-' then ds else c :: ds) : Int)
              else (decimalValue (if c = '+' ∨ c = '-' then ds else c :: ds) : Int)) = true
        then
          (if decide (c = '-') then
            -(decimalValue (if c = '+' ∨ c = '-' then ds else c :: ds) : Int)
          else (decimalValue (if c = '+' ∨ c = '-' then ds else c :: ds) : Int))
        else d := by
  simp only [List.length_cons] at hlen
  by_cases hm : c = '-'
  · subst hm
    rcases atoiFast_body ds (by omega) with ⟨h1, h2, h3, h4⟩ | ⟨h1, h2 | h2⟩
    · have hl : ¬ ds.length < 1 := by
        cases ds with
        | nil => exact absurd rfl h2
        | cons _ _ => simp
      have hr : inIntRange (-(decimalValue ds : Int)) = true := by
        simp only [inIntRange, Bool.and_eq_true, decide_eq_true_eq]
        omega
      simp [atoiFast, orDefault, h1, h3, hl, hr]
    · subst h2
      simp [atoiFast, orDefault, h1]
    · simp [atoiFast, orDefault, h1, h2]
  · by_cases hp : c = '+'
    · subst hp
      rcases atoiFast_body ds (by omega) with ⟨h1, h2, h3, h4⟩ | ⟨h1, h2 | h2⟩
      · have hl : ¬ ds.length < 1 := by
          cases ds with
          | nil => exact absurd rfl h2
          | cons _ _ => simp
        have hr : inIntRange (decimalValue ds : Int) = true := by
          simp only [inIntRange, Bool.and_eq_true, decide_eq_true_eq]
          omega
        simp [atoiFast, orDefault, h1, h3, hl, hr]
      · subst h2
        simp [atoiFast, orDefault, h1]
      · simp [atoiFast, orDefault, h1, h2]
    · have hm' : ¬ ('-' = c) := fun e => hm e.symm
      have hp' : ¬ ('+' = c) := fun e => hp e.symm
      rcases atoiFast_body (c :: ds) (by simp only [List.length_cons]; omega) with
        ⟨h1, h2, h3, h4⟩ | ⟨h1, h2 | h2⟩
      · have hr : inIntRange (decimalValue (c :: ds) : Int) = true := by
          simp only [inIntRange, Bool.and_eq_true, decide_eq_true_eq]
          omega
        simp [atoiFast, orDefault, hm, hp, h1, h3, hr]
      · exact absurd h2 (List.cons_ne_nil _ _)
      · simp [atoiFast, orDefault, hm, hp, h1, h2]

theorem atoi_spec (v : String) (d : Int) (hv : v ≠ "") :
    orDefault (Atoi v) d = expectedInt v d := by
  have hdata : v.data ≠ [] := by
    intro h
    apply hv
    cases v with
    | mk l =>
      simp only at h
      subst h
      rfl
  obtain ⟨c, ds, hcd⟩ := List.exists_cons_of_ne_nil hdata
  have hexp : expectedInt v d
      = (match literalValueOf (c :: ds) with
          | none => d
          | some n => if inIntRange n then n else d) := by
    simp only [expectedInt, literalValue, hcd]
  rw [hexp, expected_signed]
  unfold Atoi
  simp only [hcd]
  split
  · next h =>
    have hl := length_le_utf8ByteSize v
    rw [hcd] at hl
    exact atoiFast_signed c ds d (by omega)
  · have hneg : decide ((c :: ds).head? = some '-') = decide (c = '-') := by simp
    have hbody : (if (c :: ds).head? = some '+' ∨ (c :: ds).head? = some '-' then (c :: ds).tail
        else c :: ds) = (if c = '+' ∨ c = '-' then ds else c :: ds) := by simp
    exact parseInt_signed (c :: ds) _ _ d (List.cons_ne_nil _ _) hneg hbody

theorem atoi_rejects :
    Atoi "abc" = (0, some NumError.ErrSyntax)
      ∧ Atoi "12x" = (0, some NumError.ErrSyntax)
      ∧ Atoi " 12" = (0, some NumError.ErrSyntax)
      ∧ Atoi "12 " = (0, some NumError.ErrSyntax)
      ∧ Atoi "-" = (0, some NumError.ErrSyntax)
      ∧ Atoi "9223372036854775808" = (9223372036854775807, some NumError.ErrRange)
      ∧ Atoi "-9223372036854775809" = (-9223372036854775808, some NumError.ErrRange) := by
  decide

theorem atoi_accepts :
    Atoi "8080" = (8080, none)
      ∧ Atoi "+7" = (7, none)
      ∧ Atoi "-42" = (-42, none)
      ∧ Atoi "9223372036854775807" = (9223372036854775807, none)
      ∧ Atoi "-9223372036854775808" = (-9223372036854775808, none) := by
  decide

/-- C5: `getViperIntValue` is total and returns the value of the looked-up string
when that string is an optionally signed base-10 literal within the range of
`int`, and the default in every other case: the empty string, text such as
`abc`, trailing garbage such as `12x`, surrounding whitespace, a lone sign, and
literals beyond the range. -/
theorem getViperIntValue_parses (GetString : String → String) (key : String) (d : Int) :
    getViperIntValue GetString key d = expectedInt (GetString key) d
      ∧ getViperIntValue (fun _ => "") key d = d
      ∧ getViperIntValue (fun _ => "abc") key d = d
      ∧ getViperIntValue (fun _ => "12x") key d = d
      ∧ getViperIntValue (fun _ => " 12") key d = d
      ∧ getViperIntValue (fun _ => "12 ") key d = d
      ∧ getViperIntValue (fun _ => "-") key d = d
      ∧ getViperIntValue (fun _ => "9223372036854775808") key d = d
      ∧ getViperIntValue (fun _ => "-9223372036854775809") key d = d
      ∧ getViperIntValue (fun _ => "8080") key d = 8080
      ∧ getViperIntValue (fun _ => "+7") key d = 7
      ∧ getViperIntValue (fun _ => "-42") key d = -42
      ∧ getViperIntValue (fun _ => "9223372036854775807") key d = 9223372036854775807
      ∧ getViperIntValue (fun _ => "-9223372036854775808") key d = -9223372036854775808 := by
  obtain ⟨r1, r2, r3, r4, r5, r6, r7⟩ := atoi_rejects
  obtain ⟨a1, a2, a3, a4, a5⟩ := atoi_accepts
  refine ⟨?_, by simp [getViperIntValue], by simp [getViperIntValue, r1],
    by simp [getViperIntValue, r2], by simp [getViperIntValue, r3],
    by simp [getViperIntValue, r4], by simp [getViperIntValue, r5],
    by simp [getViperIntValue, r6], by simp [getViperIntValue, r7],
    by simp [getViperIntValue, a1], by simp [getViperIntValue, a2],
    by simp [getViperIntValue, a3], by simp [getViperIntValue, a4],
    by simp [getViperIntValue, a5]⟩
  by_cases h : GetString key = ""
  · simp only [getViperIntValue, h, if_true]
    rfl
  · have := atoi_spec (GetString key) d h
    simp only [orDefault] at this
    simp only [getViperIntValue, h, if_false]
    exact this

end Initialization
